import Mathlib

/-!
Verification of the CoreFlow360 ERPNext payroll arithmetic
(`src/modules/erpnext/api/integration.py`).

The relevant code is pure arithmetic over currency amounts; it is embedded
here over `ℚ` (the Python code uses floats routed through `Decimal(str(v))`,
so the intended semantics is exact decimal arithmetic).

Embedded functions:
  * `calculate_progressive_tax` — `ERPNextIntegration._calculate_progressive_tax`
    (lines 369-391), via the tail loop `progressive_tax_loop`;
  * `round_decimal` — `ERPNextIntegration._round_decimal` (lines 495-497),
    Python `Decimal.quantize` at `0.01` with ROUND_HALF_UP, i.e. two decimal places
    with ties rounded away from zero;
  * `income_tax_deduction` — the per-region income-tax entry built by
    `_calculate_deductions` (lines 310-347), including the final
    `_round_decimal` applied by the returned dict comprehension (line 367);
  * `pf_amount` — the capped provident-fund deduction (line 333);
  * the three bracket tables from `ERPNextIntegration.tax_configurations`
    (lines 41-61).

Spec-side reference definitions (`spec_progressive_amount`,
`compute_capped_rate_amount`) are clearly marked as modelled from the spec
and are only used to compare against the code.
-/

namespace CoreFlow

/-- US federal income tax brackets (`tax_configurations`, region US, line 43). -/
def federal_income_tax_brackets : List (ℚ × ℚ) :=
  [(0, 0.10), (9950, 0.12), (40525, 0.22), (86375, 0.24)]

/-- Indian income tax brackets (`tax_configurations`, region IN, line 50). -/
def in_income_tax_brackets : List (ℚ × ℚ) :=
  [(0, 0.0), (250000, 0.05), (500000, 0.20), (1000000, 0.30)]

/-- UK income tax brackets (`tax_configurations`, region UK, line 56). -/
def uk_income_tax_brackets : List (ℚ × ℚ) :=
  [(0, 0.0), (12570, 0.20), (50270, 0.40), (150000, 0.45)]

/-- Lines 379-383: the taxable slice for the current bracket.  For the last
bracket it is the whole remaining income; otherwise it is capped by the width
up to the threshold of the next bracket. -/
def taxable_in_bracket (threshold remaining : ℚ) : List (ℚ × ℚ) → ℚ
  | [] => remaining
  | (next_threshold, _) :: _ => min remaining (next_threshold - threshold)

/-- The body of the `for i, (threshold, rate) in enumerate(tax_brackets)` loop
of `_calculate_progressive_tax` (lines 374-389), in continuation form: the
result is the sum of the contributions of the current and all later brackets.
`break` on `remaining_income <= 0` returns 0 further contribution, and
`remaining_income -= taxable_in_bracket` happens only inside the
`annual_income > threshold` branch, exactly as in the source. -/
def progressive_tax_loop (annual_income : ℚ) : List (ℚ × ℚ) → ℚ → ℚ
  | [], _ => 0
  | (threshold, rate) :: rest, remaining =>
    if remaining ≤ 0 then 0
    else if threshold < annual_income then
      min (taxable_in_bracket threshold remaining rest) (annual_income - threshold) * rate
        + progressive_tax_loop annual_income rest
            (remaining - taxable_in_bracket threshold remaining rest)
    else
      progressive_tax_loop annual_income rest remaining

/-- `ERPNextIntegration._calculate_progressive_tax` (lines 369-391):
`total_tax` starts at 0 and `remaining_income` starts at `annual_income`. -/
def calculate_progressive_tax (annual_income : ℚ) (tax_brackets : List (ℚ × ℚ)) : ℚ :=
  progressive_tax_loop annual_income tax_brackets annual_income

/-- `ERPNextIntegration._round_decimal` (lines 495-497):
`Decimal(str(value)).quantize(Decimal(0.01), rounding=ROUND_HALF_UP)`.
The Python ROUND_HALF_UP mode rounds to the nearest hundredth with ties going away
from zero, which for `x ≥ 0` is `⌊100 x + 1/2⌋ / 100` and for `x < 0` the
negation of the same applied to `-x`. -/
def round_decimal (value : ℚ) : ℚ :=
  if value < 0 then -(((⌊-value * 100 + 1 / 2⌋ : ℤ) : ℚ) / 100)
  else ((⌊value * 100 + 1 / 2⌋ : ℤ) : ℚ) / 100

/-- The three payroll regions handled by `_calculate_deductions`. -/
inductive Region
  | US
  | IN
  | UK

/-- The bracket table `_calculate_deductions` uses for each region. -/
def bracket_table : Region → List (ℚ × ℚ)
  | Region.US => federal_income_tax_brackets
  | Region.IN => in_income_tax_brackets
  | Region.UK => uk_income_tax_brackets

/-- The income-tax entry of the deductions dict built by
`_calculate_deductions`, including the `_round_decimal` applied to every
value by the returned comprehension (line 367).
US (line 312): `_calculate_progressive_tax(gross_pay * 12, brackets) / 12`;
IN (lines 328-330) and UK (lines 345-347): `annual_salary = gross_pay * 12`,
then `_calculate_progressive_tax(annual_salary, brackets) / 12`. -/
def income_tax_deduction (region : Region) (gross_pay : ℚ) : ℚ :=
  match region with
  | Region.US =>
      round_decimal (calculate_progressive_tax (gross_pay * 12) federal_income_tax_brackets / 12)
  | Region.IN =>
      round_decimal (calculate_progressive_tax (gross_pay * 12) in_income_tax_brackets / 12)
  | Region.UK =>
      round_decimal (calculate_progressive_tax (gross_pay * 12) uk_income_tax_brackets / 12)

/-- Line 333: `pf_amount = min(gross_pay * pf, 1800)` with
the configured pf rate 0.12. -/
def pf_amount (gross_pay : ℚ) : ℚ :=
  min (gross_pay * 0.12) 1800

/-- Modelled from the spec: `compute_capped_rate_amount(base_amount,
{rate, cap})` (spec §4.1) has no standalone function in the source — the
pattern appears inline, e.g. the provident-fund line 333.  The spec defines
the result as `min(base_amount * rate, cap)`. -/
def compute_capped_rate_amount (base_amount rate cap : ℚ) : ℚ :=
  min (base_amount * rate) cap

/-- Modelled from the spec: the upper end `min(base_amount, t_{i+1})` of the
taxable slice of a bracket, where `t_{i+1}` is the lower bound of the next bracket
or +infinity for the last bracket (so the `min` degenerates to
`base_amount`). -/
def upper_slice (base_amount : ℚ) : List (ℚ × ℚ) → ℚ
  | [] => base_amount
  | (next_lower, _) :: _ => min base_amount next_lower

/-- Modelled from the spec: the reference bracket walk of §4.1 — the sum over
brackets `i` with `base_amount > t_i` of `(min(base_amount, t_{i+1}) - t_i) *
rate_i`.  (The early stop of the spec at the first bracket with `base_amount ≤ t_i`
is equivalent for increasing bounds, since all later terms are 0.) -/
def spec_progressive_amount (base_amount : ℚ) : List (ℚ × ℚ) → ℚ
  | [] => 0
  | (lower, rate) :: rest =>
    (if lower < base_amount then (upper_slice base_amount rest - lower) * rate else 0)
      + spec_progressive_amount base_amount rest

/-- The bracket-table invariants of the spec (§3): non-empty, first lower bound 0,
strictly increasing lower bounds. -/
def valid_brackets (bs : List (ℚ × ℚ)) : Prop :=
  bs ≠ [] ∧ bs.head?.map Prod.fst = some 0 ∧ bs.Pairwise (fun p q => p.1 < q.1)

/-- Rates lie in [0,1] (spec §3: marginal_rate is a fraction in [0,1]). -/
def rates_in_unit_interval (bs : List (ℚ × ℚ)) : Prop :=
  ∀ p ∈ bs, 0 ≤ p.2 ∧ p.2 ≤ 1

/-! ### Helper lemmas -/

lemma progressive_tax_loop_cons (x t r : ℚ) (rest : List (ℚ × ℚ)) (rem : ℚ) :
    progressive_tax_loop x ((t, r) :: rest) rem =
      if rem ≤ 0 then 0
      else if t < x then
        min (taxable_in_bracket t rem rest) (x - t) * r
          + progressive_tax_loop x rest (rem - taxable_in_bracket t rem rest)
      else progressive_tax_loop x rest rem := rfl

lemma spec_progressive_amount_cons (x t r : ℚ) (rest : List (ℚ × ℚ)) :
    spec_progressive_amount x ((t, r) :: rest) =
      (if t < x then (upper_slice x rest - t) * r else 0)
        + spec_progressive_amount x rest := rfl

lemma progressive_tax_loop_nonpos (x rem : ℚ) (h : rem ≤ 0) :
    ∀ bs : List (ℚ × ℚ), progressive_tax_loop x bs rem = 0
  | [] => rfl
  | (t, r) :: rest => by rw [progressive_tax_loop_cons, if_pos h]

lemma spec_zero_of_le (x : ℚ) :
    ∀ bs : List (ℚ × ℚ), (∀ p ∈ bs, x ≤ p.1) → spec_progressive_amount x bs = 0 := by
  intro bs
  induction bs with
  | nil => intro _; rfl
  | cons hd tl ih =>
    intro h
    obtain ⟨t, r⟩ := hd
    have ht : ¬ t < x := not_lt.mpr (h (t, r) (List.mem_cons_self _ _))
    rw [spec_progressive_amount_cons, if_neg ht,
      ih (fun p hp => h p (List.mem_cons_of_mem _ hp)), add_zero]

/-- Loop invariant: entering bracket `(t, r)` of a strictly sorted table with
`remaining_income = x - t` (which is how `_calculate_progressive_tax` always
reaches a bracket it taxes), the rest of the loop computes exactly the
bracket-walk sum of the spec for the remaining brackets. -/
lemma loop_eq_spec (x : ℚ) :
    ∀ (rest : List (ℚ × ℚ)) (t r : ℚ),
      ((t, r) :: rest).Pairwise (fun p q => p.1 < q.1) →
      progressive_tax_loop x ((t, r) :: rest) (x - t)
        = spec_progressive_amount x ((t, r) :: rest) := by
  intro rest
  induction rest with
  | nil =>
    intro t r _
    rw [progressive_tax_loop_cons, spec_progressive_amount_cons]
    by_cases hxt : x - t ≤ 0
    · rw [if_pos hxt, if_neg (not_lt.mpr (by linarith : x ≤ t))]
      simp [spec_progressive_amount]
    · have hlt : t < x := by
        have := not_le.mp hxt
        linarith
      rw [if_neg hxt, if_pos hlt]
      simp [spec_progressive_amount, taxable_in_bracket, upper_slice, progressive_tax_loop, hlt]
  | cons hd tl ih =>
    intro t r hpw
    obtain ⟨t2, r2⟩ := hd
    have hhead : ∀ p ∈ (t2, r2) :: tl, t < p.1 := by
      intro p hp
      exact (List.pairwise_cons.mp hpw).1 p hp
    have h12 : t < t2 := hhead (t2, r2) (List.mem_cons_self _ _)
    have hpw2 : ((t2, r2) :: tl).Pairwise (fun p q => p.1 < q.1) :=
      (List.pairwise_cons.mp hpw).2
    rw [progressive_tax_loop_cons, spec_progressive_amount_cons]
    by_cases hxt : x - t ≤ 0
    · have hne : ¬ t < x := not_lt.mpr (by linarith : x ≤ t)
      rw [if_pos hxt, if_neg hne,
        spec_zero_of_le x _ (fun p hp => le_trans (by linarith : x ≤ t) (le_of_lt (hhead p hp))),
        add_zero]
    · have hlt : t < x := by
        have := not_le.mp hxt
        linarith
      rw [if_neg hxt, if_pos hlt]
      have htax : taxable_in_bracket t (x - t) ((t2, r2) :: tl) = min (x - t) (t2 - t) := rfl
      by_cases hx2 : x ≤ t2
      · have hmin : min (x - t) (t2 - t) = x - t := min_eq_left (by linarith)
        have hall : ∀ p ∈ (t2, r2) :: tl, x ≤ p.1 := by
          intro p hp
          rcases List.mem_cons.mp hp with h | h
          · rw [h]; exact hx2
          · have := (List.pairwise_cons.mp hpw2).1 p h
            linarith
        rw [htax, hmin, spec_zero_of_le x _ hall,
          progressive_tax_loop_nonpos x _ (by linarith : x - t - (x - t) ≤ 0),
          min_self, upper_slice, min_eq_left hx2, if_pos hlt]
      · have h2x : t2 < x := not_le.mp hx2
        have hmin : min (x - t) (t2 - t) = t2 - t := min_eq_right (by linarith)
        have hminr : min (t2 - t) (x - t) = t2 - t := min_eq_left (by linarith)
        have hrem : x - t - (t2 - t) = x - t2 := by ring
        rw [htax, hmin, hminr, hrem, ih t2 r2 hpw2, upper_slice,
          min_eq_right (le_of_lt h2x), if_pos hlt]

/-- The implementation agrees with the reference bracket walk of the spec on every
valid bracket table.  (No sign condition on the income is needed for the
equality itself.) -/
lemma calculate_eq_spec (x : ℚ) (bs : List (ℚ × ℚ)) (hv : valid_brackets bs) :
    calculate_progressive_tax x bs = spec_progressive_amount x bs := by
  obtain ⟨hne, hhead, hpw⟩ := hv
  cases bs with
  | nil => cases hne rfl
  | cons hd rest =>
    obtain ⟨t, r⟩ := hd
    have ht : t = 0 := by simpa using hhead
    subst ht
    have h := loop_eq_spec x rest 0 r hpw
    simpa [calculate_progressive_tax] using h

/-- The bracket walk of the spec is monotone in the base amount when bounds are
strictly increasing and rates are non-negative. -/
lemma spec_mono {x y : ℚ} (hxy : x ≤ y) :
    ∀ bs : List (ℚ × ℚ), bs.Pairwise (fun p q => p.1 < q.1) →
      (∀ p ∈ bs, 0 ≤ p.2) →
      spec_progressive_amount x bs ≤ spec_progressive_amount y bs := by
  intro bs
  induction bs with
  | nil => intro _ _; simp [spec_progressive_amount]
  | cons hd tl ih =>
    intro hpw hr
    obtain ⟨t, r⟩ := hd
    have hr0 : 0 ≤ r := hr (t, r) (List.mem_cons_self _ _)
    have htail := ih (List.pairwise_cons.mp hpw).2
      (fun p hp => hr p (List.mem_cons_of_mem _ hp))
    rw [spec_progressive_amount_cons, spec_progressive_amount_cons]
    refine add_le_add ?_ htail
    by_cases h1 : t < x
    · have h2 : t < y := lt_of_lt_of_le h1 hxy
      rw [if_pos h1, if_pos h2]
      refine mul_le_mul_of_nonneg_right ?_ hr0
      have hup : upper_slice x tl ≤ upper_slice y tl := by
        cases tl with
        | nil => simpa [upper_slice] using hxy
        | cons hd2 tl2 =>
          obtain ⟨t2, r2⟩ := hd2
          simpa [upper_slice] using min_le_min hxy le_rfl
      linarith
    · by_cases h2 : t < y
      · rw [if_neg h1, if_pos h2]
        refine mul_nonneg ?_ hr0
        cases tl with
        | nil =>
          rw [upper_slice]
          linarith
        | cons hd2 tl2 =>
          obtain ⟨t2, r2⟩ := hd2
          have ht2 : t < t2 := (List.pairwise_cons.mp hpw).1 (t2, r2) (List.mem_cons_self _ _)
          rw [upper_slice]
          exact sub_nonneg.mpr (le_min (le_of_lt h2) (le_of_lt ht2))
      · rw [if_neg h1, if_neg h2]

/-- The loop returns 0 outright for non-positive income: the very first
iteration hits `remaining_income <= 0` and breaks. -/
lemma calculate_nonpos (x : ℚ) (bs : List (ℚ × ℚ)) (h : x ≤ 0) :
    calculate_progressive_tax x bs = 0 :=
  progressive_tax_loop_nonpos x x h bs

lemma floor_int_add_half (k : ℤ) : ⌊(k : ℚ) + 1 / 2⌋ = k := by
  rw [add_comm, Int.floor_add_int]
  norm_num

/-- Every output of `_round_decimal` is a whole number of cents. -/
lemma round_decimal_eq_int_div (x : ℚ) : ∃ m : ℤ, round_decimal x = (m : ℚ) / 100 := by
  unfold round_decimal
  split
  · exact ⟨-⌊-x * 100 + 1 / 2⌋, by push_cast; ring⟩
  · exact ⟨⌊x * 100 + 1 / 2⌋, rfl⟩

/-- `_round_decimal` fixes every whole number of cents. -/
lemma round_decimal_hundredth (m : ℤ) : round_decimal ((m : ℚ) / 100) = (m : ℚ) / 100 := by
  unfold round_decimal
  by_cases h : (m : ℚ) / 100 < 0
  · rw [if_pos h]
    have hm : -((m : ℚ) / 100) * 100 + 1 / 2 = ((-m : ℤ) : ℚ) + 1 / 2 := by push_cast; ring
    rw [hm, floor_int_add_half]
    push_cast
    ring
  · rw [if_neg h]
    have hm : (m : ℚ) / 100 * 100 + 1 / 2 = (m : ℚ) + 1 / 2 := by ring
    rw [hm, floor_int_add_half]

/-! ### Claims -/

/-- C1: for every `base_amount ≥ 0` and every non-empty bracket table with
strictly increasing lower bounds whose first lower bound is 0,
`_calculate_progressive_tax` returns the sum over brackets `i` with
`base_amount > t_i` of `(min(base_amount, t_{i+1}) - t_i) * rate_i`, i.e. it
equals the reference bracket walk `spec_progressive_amount` of the spec. -/
theorem C1_progressive_tax_equals_spec_walk (x : ℚ) (bs : List (ℚ × ℚ))
    (hx : 0 ≤ x) (hv : valid_brackets bs) :
    calculate_progressive_tax x bs = spec_progressive_amount x bs :=
  calculate_eq_spec x bs hv

theorem C1_progressive_tax_equals_spec_walk_witness :
    0 ≤ (1500 : ℚ) ∧ valid_brackets [((0 : ℚ), (0.10 : ℚ)), (1000, 0.20)] ∧
      calculate_progressive_tax 1500 [(0, 0.10), (1000, 0.20)]
        = spec_progressive_amount 1500 [(0, 0.10), (1000, 0.20)] := by
  have hv : valid_brackets [((0 : ℚ), (0.10 : ℚ)), (1000, 0.20)] := by
    refine ⟨by simp, rfl, ?_⟩
    norm_num [List.pairwise_cons]
  exact ⟨by norm_num, hv, C1_progressive_tax_equals_spec_walk 1500 _ (by norm_num) hv⟩

/-- C2: on the two-bracket table [(0, 0.10), (1000, 0.20)] the progressive
amount at base 1500 is exactly 200.00 (1000 at 10 percent plus 500 at 20
percent), before and after currency rounding. -/
theorem C2_concrete_two_bracket_1500 :
    calculate_progressive_tax 1500 [(0, 0.10), (1000, 0.20)] = 200 ∧
      round_decimal (calculate_progressive_tax 1500 [(0, 0.10), (1000, 0.20)]) = 200 := by
  have h : calculate_progressive_tax 1500 [(0, 0.10), (1000, 0.20)] = 200 := by
    norm_num [calculate_progressive_tax, progressive_tax_loop, taxable_in_bracket]
  refine ⟨h, ?_⟩
  rw [h]
  norm_num [round_decimal]

/-- C3 counterexample: on the malformed table [(100, 0.1), (0, 0.2)]
(non-monotonic, first lower bound not 0) the code does not fail: it returns
the value 10.0 at base 50.  There is no `InvalidConfiguration` (or any other)
error path in `_calculate_progressive_tax`; the function is total. -/
theorem C3_counterexample_malformed_table_returns_value :
    calculate_progressive_tax 50 [(100, 0.1), (0, 0.2)] = 10 := by
  norm_num [calculate_progressive_tax, progressive_tax_loop, taxable_in_bracket]

/-- C3 amended: the code performs no bracket-table validation and raises no
error; on the malformed table [(100, 0.1), (0, 0.2)] it simply returns a
number — `base_amount * 0.2` for any `0 < base_amount ≤ 100` (e.g. 10.0 at
base 50). -/
theorem C3_amended_no_validation_returns_value (x : ℚ) (h1 : 0 < x) (h2 : x ≤ 100) :
    calculate_progressive_tax x [(100, 0.1), (0, 0.2)] = x * 0.2 := by
  unfold calculate_progressive_tax
  rw [progressive_tax_loop_cons, if_neg (not_le.mpr h1), if_neg (not_lt.mpr h2),
    progressive_tax_loop_cons, if_neg (not_le.mpr h1), if_pos h1]
  simp [taxable_in_bracket, progressive_tax_loop]

theorem C3_amended_no_validation_returns_value_witness :
    0 < (80 : ℚ) ∧ (80 : ℚ) ≤ 100 ∧
      calculate_progressive_tax 80 [(100, 0.1), (0, 0.2)] = 80 * 0.2 :=
  ⟨by norm_num, by norm_num,
    C3_amended_no_validation_returns_value 80 (by norm_num) (by norm_num)⟩

/-- C4 counterexample: at `base_amount = -5` the code does not fail with
`InvalidInput`: `remaining_income <= 0` breaks the loop on its first
iteration and the function returns the value 0. -/
theorem C4_counterexample_negative_input_returns_zero :
    calculate_progressive_tax (-5) federal_income_tax_brackets = 0 :=
  calculate_nonpos _ _ (by norm_num)

/-- C4 amended: for every negative `base_amount` the code raises no error and
returns 0 (the loop breaks immediately on `remaining_income <= 0`).  No
`InvalidInput` error exists anywhere in the source. -/
theorem C4_amended_negative_input_returns_zero (x : ℚ) (bs : List (ℚ × ℚ))
    (h : x < 0) : calculate_progressive_tax x bs = 0 :=
  calculate_nonpos x bs (le_of_lt h)

theorem C4_amended_negative_input_returns_zero_witness :
    (-7 : ℚ) < 0 ∧ calculate_progressive_tax (-7) in_income_tax_brackets = 0 :=
  ⟨by norm_num, C4_amended_negative_input_returns_zero (-7) _ (by norm_num)⟩

/-- C5: for every fixed valid bracket table (structural invariants plus rates
in [0,1]), `_calculate_progressive_tax` is monotone non-decreasing in the
base amount on `0 ≤ x ≤ y`. -/
theorem C5_progressive_tax_monotone (bs : List (ℚ × ℚ)) (x y : ℚ)
    (hv : valid_brackets bs) (hr : rates_in_unit_interval bs)
    (hx : 0 ≤ x) (hxy : x ≤ y) :
    calculate_progressive_tax x bs ≤ calculate_progressive_tax y bs := by
  rw [calculate_eq_spec x bs hv, calculate_eq_spec y bs hv]
  exact spec_mono hxy bs hv.2.2 (fun p hp => (hr p hp).1)

theorem C5_progressive_tax_monotone_witness :
    valid_brackets [((0 : ℚ), (0.10 : ℚ)), (1000, 0.20)] ∧
      rates_in_unit_interval [((0 : ℚ), (0.10 : ℚ)), (1000, 0.20)] ∧
      0 ≤ (100 : ℚ) ∧ (100 : ℚ) ≤ 1600 ∧
      calculate_progressive_tax 100 [(0, 0.10), (1000, 0.20)]
        ≤ calculate_progressive_tax 1600 [(0, 0.10), (1000, 0.20)] := by
  have hv : valid_brackets [((0 : ℚ), (0.10 : ℚ)), (1000, 0.20)] := by
    refine ⟨by simp, rfl, ?_⟩
    norm_num [List.pairwise_cons]
  have hr : rates_in_unit_interval [((0 : ℚ), (0.10 : ℚ)), (1000, 0.20)] := by
    intro p hp
    rcases List.mem_cons.mp hp with h | h
    · rw [h]; norm_num
    · rw [List.mem_singleton.mp h]; norm_num
  exact ⟨hv, hr, by norm_num, by norm_num,
    C5_progressive_tax_monotone _ 100 1600 hv hr (by norm_num) (by norm_num)⟩

/-- C6: the rounding policy.  (i) Every output of `_round_decimal` is a whole
number of cents; (ii) ties round away from zero toward the higher cent in
absolute value, on both sides of zero — in particular 0.005 rounds to 0.01,
not to 0.00 as round-half-even would give; (iii) the returned income-tax
deduction is `_round_decimal` applied exactly once to the exact unrounded
result of the bracket walk divided by 12; (iv) the bracket walk itself does
not round: it can return values that are not whole cents. -/
theorem C6_rounding_policy :
    (∀ x : ℚ, ∃ m : ℤ, round_decimal x = (m : ℚ) / 100) ∧
    (∀ k : ℕ, round_decimal (((2 * k + 1 : ℕ) : ℚ) / 200) = ((k + 1 : ℕ) : ℚ) / 100 ∧
      round_decimal (-(((2 * k + 1 : ℕ) : ℚ) / 200)) = -(((k + 1 : ℕ) : ℚ) / 100)) ∧
    (∀ g : ℚ, income_tax_deduction Region.US g
        = round_decimal (calculate_progressive_tax (g * 12) federal_income_tax_brackets / 12)) ∧
    ¬ ∃ m : ℤ, calculate_progressive_tax (1 / 1000) [(0, 0.1)] = (m : ℚ) / 100 := by
  refine ⟨round_decimal_eq_int_div, ?_, fun _ => rfl, ?_⟩
  · intro k
    have hpos : (0 : ℚ) < ((2 * k + 1 : ℕ) : ℚ) / 200 := by
      have h1 : (0 : ℚ) < ((2 * k + 1 : ℕ) : ℚ) := by
        exact_mod_cast Nat.succ_pos (2 * k)
      linarith
    constructor
    · unfold round_decimal
      rw [if_neg (not_lt.mpr (le_of_lt hpos))]
      have h2 : ((2 * k + 1 : ℕ) : ℚ) / 200 * 100 + 1 / 2 = (((k + 1 : ℕ) : ℤ) : ℚ) := by
        push_cast
        ring
      rw [h2, Int.floor_intCast]
      push_cast
      ring
    · unfold round_decimal
      rw [if_pos (by linarith : -(((2 * k + 1 : ℕ) : ℚ) / 200) < 0)]
      have h2 : -(-(((2 * k + 1 : ℕ) : ℚ) / 200)) * 100 + 1 / 2 = (((k + 1 : ℕ) : ℤ) : ℚ) := by
        push_cast
        ring
      rw [h2, Int.floor_intCast]
      push_cast
      ring
  · rintro ⟨m, hm⟩
    have hval : calculate_progressive_tax (1 / 1000) [(0, 0.1)] = 1 / 10000 := by
      norm_num [calculate_progressive_tax, progressive_tax_loop, taxable_in_bracket]
    rw [hval] at hm
    have h3 : ((100 * m : ℤ) : ℚ) = 1 := by
      push_cast
      field_simp at hm
      linarith
    have h4 : (100 * m : ℤ) = 1 := by exact_mod_cast h3
    omega

/-- C7: the capped-rate computation is `min(base_amount * rate, cap)` and so
never exceeds the cap; in particular the provident-fund deduction
`min(gross_pay * 0.12, 1800)` of line 333 never exceeds 1800. -/
theorem C7_cap_enforcement (x r c g : ℚ)
    (hx : 0 ≤ x) (hr0 : 0 ≤ r) (hr1 : r ≤ 1) (hc : 0 ≤ c) :
    compute_capped_rate_amount x r c = min (x * r) c ∧
      compute_capped_rate_amount x r c ≤ c ∧ pf_amount g ≤ 1800 :=
  ⟨rfl, min_le_right _ _, min_le_right _ _⟩

theorem C7_cap_enforcement_witness :
    0 ≤ (1800 : ℚ) ∧ 0 ≤ (0.12 : ℚ) ∧ (0.12 : ℚ) ≤ 1 ∧ 0 ≤ (150 : ℚ) ∧
      (compute_capped_rate_amount 1800 0.12 150 = min (1800 * 0.12) 150 ∧
        compute_capped_rate_amount 1800 0.12 150 ≤ 150 ∧ pf_amount 15000 ≤ 1800) :=
  ⟨by norm_num, by norm_num, by norm_num, by norm_num,
    C7_cap_enforcement 1800 0.12 150 15000 (by norm_num) (by norm_num) (by norm_num)
      (by norm_num)⟩

/-- C8: for each of the regions US, IN, UK the monthly income-tax deduction is
obtained by annualizing the gross pay with multiplier 12, running the
progressive bracket calculation on the annualized amount against the annual
table of that region, and dividing the result by the same multiplier 12. -/
theorem C8_annualize_compute_deannualize (region : Region) (g : ℚ) :
    income_tax_deduction region g
      = round_decimal (calculate_progressive_tax (g * 12) (bracket_table region) / 12) := by
  cases region <;> rfl

/-- C9: `_calculate_progressive_tax` returns 0 (and raises no exception — it
has no error path and is total) whenever the income is non-positive or the
bracket list is empty. -/
theorem C9_nonpositive_or_empty_returns_zero (x : ℚ) (bs : List (ℚ × ℚ))
    (h : x ≤ 0 ∨ bs = []) : calculate_progressive_tax x bs = 0 := by
  rcases h with h | h
  · exact calculate_nonpos x bs h
  · rw [h]
    rfl

theorem C9_nonpositive_or_empty_returns_zero_witness :
    calculate_progressive_tax (-3) federal_income_tax_brackets = 0 ∧
      calculate_progressive_tax 5 [] = 0 :=
  ⟨C9_nonpositive_or_empty_returns_zero (-3) _ (Or.inl (by norm_num)),
    C9_nonpositive_or_empty_returns_zero 5 [] (Or.inr rfl)⟩

/-- C10: `_round_decimal` is idempotent — rounding an already-rounded value
leaves it unchanged. -/
theorem C10_round_decimal_idempotent (x : ℚ) :
    round_decimal (round_decimal x) = round_decimal x := by
  obtain ⟨m, hm⟩ := round_decimal_eq_int_div x
  rw [hm, round_decimal_hundredth]

end CoreFlow
